import Mathlib

/-!
Verification development for the connection-utility and core-orchestrator
modules of the keploy traffic-interception repository.

The Go source is shallowly embedded:
- machine integers become `Nat` (with explicit bounds where overflow matters);
- `io.Reader` becomes a stream `Nat → ReadRes` giving, for the k-th `Read`
  call issued during the modelled operation, the bytes read and the error;
- `context.Context` cancellation becomes a predicate `Nat → Bool` over the
  same step counter, `true` meaning the `ctx.Done()` channel is ready at
  that loop-iteration boundary;
- unbounded `for` loops become fuel-indexed recursion returning `Option`
  (`none` = fuel exhausted, an artefact never reachable for the runs the
  theorems talk about);
- `time.Sleep(100ms)` is counted in a `sleeps` field instead of waiting.
-/

namespace Keploy

/-- Model of Go error values as they are distinguished by the source:
`io.EOF` (compared with `==` in ReadBytes), a `net.Error` whose `Timeout()`
is true (tested in PassThrough), a `net.Error` whose `Timeout()` is false,
and any other error (carrying a code to keep distinct errors distinct). -/
inductive IOErr where
  | eof : IOErr
  | netTimeout : IOErr
  | netOther : Nat → IOErr
  | plain : Nat → IOErr
deriving DecidableEq

/-- Model of the `err.(net.Error); ok && netErr.Timeout()` test in PassThrough. -/
def IOErr.isNetTimeout : IOErr → Bool
  | .netTimeout => true
  | _ => false

/-- Result of one `reader.Read(buf)` call: the bytes actually read
(`n = data.length`) and the error returned alongside them. -/
structure ReadRes where
  data : List Nat
  err : Option IOErr
deriving DecidableEq

/-- Outcome of a read loop: accumulated bytes, returned error (`none` = nil),
number of 100ms sleeps performed, and the read-step position after the call
(number of `Read` calls consumed from the stream). -/
abbrev ReadOut := List Nat × Option IOErr × Nat × Nat

/-- Embedding of the `for { select { ... } }` loop of `ReadBytes`
(src/unnamed/part_000 lines 78-113).  State: current read-step `step`,
accumulator `buffer`, `emptyReads` streak counter, count of sleeps so far.
The window size is the constant 1024 and `maxEmptyReads = 5` as in the
source. -/
def readBytesLoop (reader : Nat → ReadRes) (cancelled : Nat → Bool)
    (step : Nat) (buffer : List Nat) (emptyReads : Nat) (sleeps : Nat) :
    Nat → Option ReadOut
  | 0 => none
  | fuel + 1 =>
    if cancelled step then
      -- case <-ctx.Done(): return buffer, nil
      some (buffer, none, sleeps, step)
    else
      let r := reader step
      let n := r.data.length
      -- if n > 0 { buffer = append(buffer, buf[:n]...); emptyReads = 0 }
      let buffer1 := buffer ++ r.data
      let empty1 := if 0 < n then 0 else emptyReads
      match r.err with
      | some IOErr.eof =>
        -- emptyReads++; if emptyReads >= maxEmptyReads return (buffer, err)
        if 5 ≤ empty1 + 1 then some (buffer1, some IOErr.eof, sleeps, step + 1)
        else readBytesLoop reader cancelled (step + 1) buffer1 (empty1 + 1) (sleeps + 1) fuel
      | some e => some (buffer1, some e, sleeps, step + 1)
      | none =>
        -- if n < len(buf) { return buffer, nil }
        if n < 1024 then some (buffer1, none, sleeps, step + 1)
        else readBytesLoop reader cancelled (step + 1) buffer1 empty1 sleeps fuel

/-- Embedding of `ReadBytes(ctx, reader)` starting at read-step `pos`. -/
def ReadBytes (reader : Nat → ReadRes) (cancelled : Nat → Bool)
    (pos : Nat) (fuel : Nat) : Option ReadOut :=
  readBytesLoop reader cancelled pos [] 0 0 fuel

/-- Embedding of the loop of `ReadRequiredBytes` (src/unnamed/part_000
lines 117-155).  `numBytes` is the remaining byte target, shrunk each
iteration; the read window is `numBytes` itself, and a read returning
exactly `numBytes` bytes appends and returns `(buffer, nil)` before any
error is examined, as in the source. -/
def readRequiredLoop (reader : Nat → ReadRes) (cancelled : Nat → Bool)
    (step : Nat) (buffer : List Nat) (numBytes : Nat) (emptyReads : Nat)
    (sleeps : Nat) : Nat → Option ReadOut
  | 0 => none
  | fuel + 1 =>
    if cancelled step then
      some (buffer, none, sleeps, step)
    else
      let r := reader step
      let n := r.data.length
      if n = numBytes then some (buffer ++ r.data, none, sleeps, step + 1)
      else
        let buffer1 := buffer ++ r.data
        let num1 := numBytes - n
        let empty1 := if 0 < n then 0 else emptyReads
        match r.err with
        | some IOErr.eof =>
          if 5 ≤ empty1 + 1 then some (buffer1, some IOErr.eof, sleeps, step + 1)
          else readRequiredLoop reader cancelled (step + 1) buffer1 num1 (empty1 + 1) (sleeps + 1) fuel
        | some e => some (buffer1, some e, sleeps, step + 1)
        | none => readRequiredLoop reader cancelled (step + 1) buffer1 num1 empty1 sleeps fuel

/-- Embedding of `ReadRequiredBytes(ctx, reader, numBytes)`. -/
def ReadRequiredBytes (reader : Nat → ReadRes) (cancelled : Nat → Bool)
    (pos : Nat) (numBytes : Nat) (fuel : Nat) : Option ReadOut :=
  readRequiredLoop reader cancelled pos [] numBytes 0 0 fuel

/-- Embedding of the loop of `ReadBuffConn(ctx, logger, conn, bufferChannel,
errChannel)` (src/unnamed/part_000 lines 34-52).  `outs` and `errs` hold what
has been published so far on the two channels; channel sends are modelled as
appends (the synchronous receiver always accepts).  `rfuel` is the fuel handed
to each inner `ReadBytes` call, `pos` the shared read-step position. -/
def readBuffConnLoop (reader : Nat → ReadRes) (cancelled : Nat → Bool)
    (rfuel : Nat) (pos : Nat) (outs : List (List Nat)) (errs : List IOErr) :
    Nat → Option (List (List Nat) × List IOErr)
  | 0 => none
  | ofuel + 1 =>
    if cancelled pos then
      -- case <-ctx.Done(): return
      some (outs, errs)
    else
      match ReadBytes reader cancelled pos rfuel with
      | none => none
      | some (_, some e, _, _) =>
        -- errChannel <- err; return
        some (outs, errs ++ [e])
      | some (buffer, none, _, pos1) =>
        -- bufferChannel <- buffer; continue looping
        readBuffConnLoop reader cancelled rfuel pos1 (outs ++ [buffer]) errs ofuel

/-- Embedding of `ReadBuffConn` started with nothing yet published. -/
def ReadBuffConn (reader : Nat → ReadRes) (cancelled : Nat → Bool)
    (rfuel : Nat) (pos : Nat) (ofuel : Nat) :
    Option (List (List Nat) × List IOErr) :=
  readBuffConnLoop reader cancelled rfuel pos [] [] ofuel

/-- Reference description of an uncancelled `ReadBuffConn` run: iterate
`ReadBytes` from `pos`, collecting the successful messages in order until the
first call that reports an error, and return that message list with the first
error.  Used to state that the loop publishes each complete message and the
first error. -/
def readsUntilErr (reader : Nat → ReadRes) (rfuel : Nat) (pos : Nat) :
    Nat → Option (List (List Nat) × IOErr)
  | 0 => none
  | k + 1 =>
    match ReadBytes reader (fun _ => false) pos rfuel with
    | none => none
    | some (_, some e, _, _) => some ([], e)
    | some (buffer, none, _, pos1) =>
      match readsUntilErr reader rfuel pos1 k with
      | none => none
      | some (ms, e) => some (buffer :: ms, e)

/-- Observable outcome of one `PassThrough` call: the request chunks
successfully written to the destination (in order), whether the destination
connection was closed, the buffers written to the client connection, and the
returned error (the `[]byte` return of the Go function is `nil` on every
path, so only the error is recorded). -/
structure PTRes where
  destWritten : List (List Nat)
  destClosed : Bool
  clientWritten : List (List Nat)
  retErr : Option IOErr
deriving DecidableEq

/-- Error value of `errors.New("failed to pass network traffic to the
destination conn")` used on the nil-destination path of PassThrough. -/
def nilDestErr : IOErr := IOErr.plain 0

/-- Embedding of the `for _, v := range requestBuffer { destConn.Write(v) }`
loop of PassThrough.  `destW i` is the error returned by the i-th write to
the destination; a successful write appends the chunk, a failing write stops
the loop with that error. -/
def writeChunks (destW : Nat → Option IOErr) :
    List (List Nat) → Nat → List (List Nat) → List (List Nat) × Option IOErr
  | [], _, written => (written, none)
  | c :: rest, i, written =>
    match destW i with
    | some e => (written, some e)
    | none => writeChunks destW rest (i + 1) (written ++ [c])

/-- Embedding of `PassThrough(ctx, logger, clientConn, destConn,
requestBuffer)` (src/unnamed/part_000 lines 159-211).  `destIsNil` models
`destConn == nil`; `clientW` is the error of the single response write to the
client.  The three-way `select` is resolved deterministically: the
`ctx.Done()` branch is taken when cancellation is already observable,
otherwise the background `ReadBuffConn` supplies either the first message or
the first error from its first `ReadBytes` call. -/
def PassThrough (cancelled : Nat → Bool) (reader : Nat → ReadRes)
    (destW : Nat → Option IOErr) (clientW : Option IOErr)
    (destIsNil : Bool) (chunks : List (List Nat)) (rfuel : Nat) :
    Option PTRes :=
  if destIsNil then
    -- if destConn == nil { return nil, errors.New(...) }  (before the defer)
    some ⟨[], false, [], some nilDestErr⟩
  else
    -- defer destConn.Close() is registered here: every later exit closes
    match writeChunks destW chunks 0 [] with
    | (written, some e) => some ⟨written, true, [], some e⟩
    | (written, none) =>
      if cancelled 0 then
        -- case <-ctx.Done(): return nil, nil
        some ⟨written, true, [], none⟩
      else
        match ReadBytes reader cancelled 0 rfuel with
        | none => none
        | some (_, some e, _, _) =>
          -- case err := <-errChannel
          if e.isNetTimeout then some ⟨written, true, [], none⟩
          else some ⟨written, true, [], some e⟩
        | some (buffer, none, _, _) =>
          -- case buffer := <-destBufferChannel: clientConn.Write(buffer)
          match clientW with
          | some e => some ⟨written, true, [], some e⟩
          | none => some ⟨written, true, [buffer], none⟩

/-! ### Core orchestrator (src/pkg/core/core.go) -/

/-- App kinds as classified by `a.Kind(ctx)` against `utils.Docker` and
`utils.DockerCompose`. -/
inductive AppKind where
  | native : AppKind
  | docker : AppKind
  | dockerCompose : AppKind
deriving DecidableEq

/-- Model of the `*app.App` handle: the fields the core reads through the
App capability (`Kind`, `KeployIPv4Addr`). -/
structure App where
  id : Nat
  kind : AppKind
  keployIPv4 : Nat
deriving DecidableEq

/-- HookCfg as built by `Core.Hook`. -/
structure HookCfg where
  appID : Nat
  pid : Nat
  isDocker : Bool
  keployIPV4 : Nat
deriving DecidableEq

/-- ProxyOptions as built by `Core.Hook` for `proxy.StartProxy`. -/
structure ProxyOptions where
  dnsIPv4Addr : Nat
deriving DecidableEq

/-- State of a `Core` value: the `utils.AutoInc` counter, the `sync.Map`
registry (`AppID → App`, modelled as an association list), and the
`proxyStarted` gate.  The hook and proxy collaborators are external; their
results enter as oracle arguments of each call. -/
structure Core where
  nextID : Nat
  apps : List (Nat × App)
  proxyStarted : Bool
deriving DecidableEq

/-- Core.New: zero counter, empty registry, proxy not started. -/
def Core.new : Core := ⟨0, [], false⟩

/-- Embedding of `Core.getApp` (core.go lines 45-58): a failed registry
lookup is the not-found error; the type assertion on the stored value cannot
fail in the typed model (the registry holds `App` values by construction),
matching the source where only `*app.App` values are ever stored. -/
def Core.getApp (c : Core) (id : Nat) : Option App :=
  c.apps.lookup id

/-- Embedding of `Core.Setup` (core.go lines 32-43).  `kind`/`ipv4`
parameterise the constructed `app.NewApp` handle and `setupRes` is the error
returned by `a.Setup` (`none` = nil).  The source allocates the next ID and
constructs the App but never calls `c.apps.Store`, so the registry of the
returned state is the registry of the input state unchanged. -/
def Core.Setup (c : Core) (kind : AppKind) (ipv4 : Nat)
    (setupRes : Option String) : Core × Nat × Option String :=
  let id := c.nextID
  let c1 : Core := { c with nextID := c.nextID + 1 }
  let _a : App := ⟨id, kind, ipv4⟩
  match setupRes with
  | some e => (c1, 0, some e)
  | none => (c1, id, none)

/-- Error message returned by `Core.Hook` on any failure. -/
def hookErrMsg : String := "failed to hook into the app"

/-- One `Core.Hook` call: the target AppID together with the oracle results
of the two collaborator calls it may make (`hook.Load`, `proxy.StartProxy`;
`none` = nil error). -/
structure HookEvent where
  id : Nat
  loadRes : Option String
  startRes : Option String
deriving DecidableEq

/-- Observable outcome of one `Core.Hook` call: the state after the call,
the returned error, the `hook.Load` invocations made (with their HookCfg)
and the `proxy.StartProxy` invocations made (with their ProxyOptions). -/
structure HookOut where
  state : Core
  ret : Option String
  loadCalls : List HookCfg
  startCalls : List ProxyOptions
deriving DecidableEq

/-- Embedding of `Core.Hook` (core.go lines 60-109). -/
def Core.Hook (c : Core) (ev : HookEvent) : HookOut :=
  match c.getApp ev.id with
  | none => ⟨c, some hookErrMsg, [], []⟩
  | some a =>
    let isDocker :=
      match a.kind with
      | AppKind.docker => true
      | AppKind.dockerCompose => true
      | AppKind.native => false
    let cfg : HookCfg := ⟨ev.id, 0, isDocker, a.keployIPv4⟩
    match ev.loadRes with
    | some _ => ⟨c, some hookErrMsg, [cfg], []⟩
    | none =>
      if c.proxyStarted then
        -- if c.proxyStarted { return nil }
        ⟨c, none, [cfg], []⟩
      else
        let popts : ProxyOptions := ⟨a.keployIPv4⟩
        match ev.startRes with
        | some _ => ⟨c, some hookErrMsg, [cfg], [popts]⟩
        | none => ⟨{ c with proxyStarted := true }, none, [cfg], [popts]⟩

/-- Fold a sequence of `Core.Hook` calls, collecting every `StartProxy`
invocation made across the whole sequence. -/
def hookSeq (c : Core) : List HookEvent → Core × List ProxyOptions
  | [] => (c, [])
  | ev :: rest =>
    let out := Core.Hook c ev
    let tail := hookSeq out.state rest
    (tail.1, out.startCalls ++ tail.2)

/-- AppError types distinguished by `Core.Run`: the zero value returned for
`ServeTest`, and `models.ErrInternal` used when `getApp` fails. -/
inductive AppErrTy where
  | zero : AppErrTy
  | internal : AppErrTy
  | fromApp : Nat → AppErrTy
deriving DecidableEq

/-- Embedding of `Core.Run` (core.go lines 111-136) at the granularity the
claims need: the ServeTest short-circuit, the getApp failure path, and
delegation to `a.Run` whose result enters as the oracle `appRes` (the
background inode-forwarding goroutine does not affect the returned value). -/
def Core.Run (c : Core) (id : Nat) (serveTest : Bool) (appRes : AppErrTy) :
    AppErrTy :=
  if serveTest then AppErrTy.zero
  else
    match c.getApp id with
    | none => AppErrTy.internal
    | some _ => appRes

/-! ### Address codec (src/unnamed/part_000 lines 214-318) -/

/-- Character of a single decimal digit. -/
def digitChar (d : Nat) : Char := Char.ofNat (48 + d)

/-- Numeric value of a decimal digit character. -/
def digitVal (c : Char) : Nat := c.toNat - 48

/-- Decimal-digit test on characters. -/
def isDigitCh (c : Char) : Bool := 48 ≤ c.toNat && c.toNat ≤ 57

/-- Little-endian decimal digits of `n`, with explicit fuel (`fuel ≥ n`
suffices); models the digit loop behind `fmt.Sprintf("%d", n)`. -/
def natDigitsAux : Nat → Nat → List Nat
  | 0, _ => []
  | _ + 1, 0 => []
  | fuel + 1, n + 1 => ((n + 1) % 10) :: natDigitsAux fuel ((n + 1) / 10)

/-- Decimal text of `n` as a character list (what `fmt.Sprintf("%d", n)`
produces). -/
def natToChars (n : Nat) : List Char :=
  if n = 0 then [digitChar 0] else ((natDigitsAux n n).reverse).map digitChar

/-- Embedding of `ToIP4AddressStr(ip uint32)` (lines 214-226).  The source
renders the 32-bit value with `%032b` and parses the four 8-bit slices back
with `strconv.ParseUint(_, 2, 64)`; slicing the binary string at bits
[0:8), [8:16), [16:24), [24:32) is byte extraction, embedded as division and
remainder by powers of two. -/
def ToIP4AddressStr (ip : Nat) : String :=
  String.mk (natToChars (ip / 16777216 % 256)
    ++ '.' :: natToChars (ip / 65536 % 256)
    ++ '.' :: natToChars (ip / 256 % 256)
    ++ '.' :: natToChars (ip % 256))

/-- Model of Go `net.IP`: a byte slice (4-byte or 16-byte form). -/
abbrev NetIP := List Nat

/-- Model of `net.IP.To4`: a 4-byte value is returned as is; a 16-byte value
is accepted when it is IPv4-mapped (leading `0,...,0,0xff,0xff`), returning
its last four bytes; anything else gives nil. -/
def ipTo4 (ip : NetIP) : Option NetIP :=
  if ip.length = 4 then some ip
  else if ip.length = 16 && ip.take 12 = [0, 0, 0, 0, 0, 0, 0, 0, 0, 0, 255, 255] then
    some (ip.drop 12)
  else none

/-- Embedding of `ToIPV4(ip net.IP) (uint32, bool)` (lines 266-273):
`uint32(ipv4[0])<<24 | uint32(ipv4[1])<<16 | uint32(ipv4[2])<<8 |
uint32(ipv4[3])`. -/
def ToIPV4 (ip : NetIP) : Nat × Bool :=
  match ipTo4 ip with
  | none => (0, false)
  | some ipv4 =>
    ((ipv4.getD 0 0) <<< 24 ||| (ipv4.getD 1 0) <<< 16
      ||| (ipv4.getD 2 0) <<< 8 ||| ipv4.getD 3 0, true)

/-- Split a character list at every dot, keeping empty fields. -/
def splitOnDot : List Char → List (List Char)
  | [] => [[]]
  | c :: rest =>
    let r := splitOnDot rest
    if c = '.' then [] :: r
    else
      match r with
      | [] => [[c]]
      | h :: t => (c :: h) :: t

/-- Value of a dotted-quad field: every character must be a decimal digit,
the field nonempty and the value at most 255. -/
def parseField (cs : List Char) : Option Nat :=
  if cs ≠ [] && cs.all isDigitCh then
    let v := cs.foldl (fun a c => a * 10 + digitVal c) 0
    if v ≤ 255 then some v else none
  else none

/-- Modelled from the spec: the text→IP direction of the address codec round
trip goes through Go's `net.ParseIP`, which is standard-library code outside
this repository; for dotted-decimal IPv4 text it yields the four byte
values, rejecting anything that is not exactly four fields of decimal digits
in range (the canonical strings produced by `ToIP4AddressStr` are always in
that fragment). -/
def parseIPv4Text (s : String) : Option NetIP :=
  match (splitOnDot s.data).map parseField with
  | [some a, some b, some c, some d] => some [a, b, c, d]
  | _ => none

/-! ## Helper lemmas: read loops -/

theorem readBytesLoop_cancel (reader : Nat → ReadRes) (cancelled : Nat → Bool)
    (step : Nat) (buffer : List Nat) (e sl fuel : Nat)
    (hc : cancelled step = true) :
    readBytesLoop reader cancelled step buffer e sl (fuel + 1) =
      some (buffer, none, sl, step) := by
  simp [readBytesLoop, hc]

theorem readBytesLoop_eof_step (reader : Nat → ReadRes) (cancelled : Nat → Bool)
    (step : Nat) (buffer : List Nat) (e sl fuel : Nat)
    (hc : cancelled step = false) (hr : reader step = ⟨[], some IOErr.eof⟩)
    (he : e + 1 < 5) :
    readBytesLoop reader cancelled step buffer e sl (fuel + 1) =
      readBytesLoop reader cancelled (step + 1) buffer (e + 1) (sl + 1) fuel := by
  simp [readBytesLoop, hc, hr]
  omega

theorem readBytesLoop_eof_final (reader : Nat → ReadRes) (cancelled : Nat → Bool)
    (step : Nat) (buffer : List Nat) (e sl fuel : Nat)
    (hc : cancelled step = false) (hr : reader step = ⟨[], some IOErr.eof⟩)
    (he : 5 ≤ e + 1) :
    readBytesLoop reader cancelled step buffer e sl (fuel + 1) =
      some (buffer, some IOErr.eof, sl, step + 1) := by
  simp [readBytesLoop, hc, hr, he]

theorem readBytesLoop_short (reader : Nat → ReadRes) (cancelled : Nat → Bool)
    (step : Nat) (buffer : List Nat) (e sl fuel : Nat) (data : List Nat)
    (hc : cancelled step = false) (hr : reader step = ⟨data, none⟩)
    (hlen : data.length < 1024) :
    readBytesLoop reader cancelled step buffer e sl (fuel + 1) =
      some (buffer ++ data, none, sl, step + 1) := by
  simp [readBytesLoop, hc, hr, hlen]

theorem readBytesLoop_absorb (reader : Nat → ReadRes) (cancelled : Nat → Bool)
    (k : Nat) :
    ∀ step buffer e sl fuel,
      (∀ i, step ≤ i → i < step + k → reader i = ⟨[], some IOErr.eof⟩) →
      (∀ i, cancelled i = false) → e + k ≤ 4 →
      readBytesLoop reader cancelled step buffer e sl (fuel + k) =
        readBytesLoop reader cancelled (step + k) buffer (e + k) (sl + k) fuel := by
  induction k with
  | zero => intro step buffer e sl fuel _ _ _; rfl
  | succ k ih =>
    intro step buffer e sl fuel hr hc he
    rw [show fuel + (k + 1) = (fuel + k) + 1 from rfl]
    rw [readBytesLoop_eof_step reader cancelled step buffer e sl (fuel + k)
      (hc step) (hr step (Nat.le_refl step) (by omega)) (by omega)]
    rw [ih (step + 1) buffer (e + 1) (sl + 1) fuel
      (fun i hi1 hi2 => hr i (by omega) (by omega)) hc (by omega)]
    rw [show step + 1 + k = step + (k + 1) by omega,
      show e + 1 + k = e + (k + 1) by omega,
      show sl + 1 + k = sl + (k + 1) by omega]

/-! ## Claim theorems: read primitives -/

/-- C4: for a reader whose first read returns n bytes with 0 < n < 1024 and
no error, ReadBytes returns exactly those n bytes with a nil error after that
single read (one read consumed, zero sleeps). -/
theorem readBytes_short_read (reader : Nat → ReadRes) (cancelled : Nat → Bool)
    (data : List Nat) (fuel : Nat)
    (h0 : reader 0 = ⟨data, none⟩) (h1 : 0 < data.length)
    (h2 : data.length < 1024) (hc : cancelled 0 = false) :
    ReadBytes reader cancelled 0 (fuel + 1) = some (data, none, 0, 1) := by
  unfold ReadBytes
  rw [readBytesLoop_short reader cancelled 0 [] 0 0 fuel data hc h0 h2]
  simp

/-- C4 witness: the 5-byte chunk for "hello" is returned after the first
read with nil error and no sleeps. -/
theorem readBytes_short_read_witness :
    ReadBytes (fun _ => ⟨[104, 101, 108, 108, 111], none⟩) (fun _ => false) 0 1 =
      some ([104, 101, 108, 108, 111], none, 0, 1) :=
  readBytes_short_read (fun _ => ⟨[104, 101, 108, 108, 111], none⟩)
    (fun _ => false) [104, 101, 108, 108, 111] 0 rfl (by norm_num) (by norm_num) rfl

/-- C3: a reader that always returns zero bytes with EOF makes ReadBytes
return `([], EOF)` only after 5 consecutive read attempts with 4 inter-retry
sleeps; and an EOF streak shorter than the ceiling (j ≤ 4 empty EOF reads
followed by a short successful read) is absorbed by retrying and is not
reported to the caller. -/
theorem readBytes_retry_exhaustion :
    (∀ (reader : Nat → ReadRes) (cancelled : Nat → Bool) (fuel : Nat),
      (∀ i, reader i = ⟨[], some IOErr.eof⟩) → (∀ i, cancelled i = false) →
      ReadBytes reader cancelled 0 (fuel + 5) = some ([], some IOErr.eof, 4, 5)) ∧
    (∀ (reader : Nat → ReadRes) (cancelled : Nat → Bool) (fuel j : Nat)
      (data : List Nat),
      (∀ i, i < j → reader i = ⟨[], some IOErr.eof⟩) → j ≤ 4 →
      reader j = ⟨data, none⟩ → 0 < data.length → data.length < 1024 →
      (∀ i, cancelled i = false) →
      ReadBytes reader cancelled 0 (fuel + (j + 1)) = some (data, none, j, j + 1)) := by
  constructor
  · intro reader cancelled fuel hr hc
    unfold ReadBytes
    rw [show fuel + 5 = (fuel + 1) + 4 from rfl]
    rw [readBytesLoop_absorb reader cancelled 4 0 [] 0 0 (fuel + 1)
      (fun i _ _ => hr i) hc (by omega)]
    rw [show (0 : Nat) + 4 = 4 from rfl]
    exact readBytesLoop_eof_final reader cancelled 4 [] 4 4 fuel (hc 4) (hr 4) (by omega)
  · intro reader cancelled fuel j data hr hj h0 h1 h2 hc
    unfold ReadBytes
    rw [show fuel + (j + 1) = (fuel + 1) + j by omega]
    rw [readBytesLoop_absorb reader cancelled j 0 [] 0 0 (fuel + 1)
      (fun i _ h2 => hr i (by omega)) hc (by omega)]
    rw [show (0 : Nat) + j = j by omega]
    rw [readBytesLoop_short reader cancelled j [] j j fuel data (hc j) h0 h2]
    simp

/-- C3 witness: the always-EOF reader exhausts the retry budget after 5
reads and 4 sleeps; two empty EOF reads followed by a short read are
absorbed. -/
theorem readBytes_retry_exhaustion_witness :
    ReadBytes (fun _ => ⟨[], some IOErr.eof⟩) (fun _ => false) 0 5 =
      some ([], some IOErr.eof, 4, 5) ∧
    ReadBytes (fun i => if i < 2 then ⟨[], some IOErr.eof⟩ else ⟨[9], none⟩)
      (fun _ => false) 0 3 = some ([9], none, 2, 3) := by
  constructor
  · exact readBytes_retry_exhaustion.1 (fun _ => ⟨[], some IOErr.eof⟩)
      (fun _ => false) 0 (fun _ => rfl) (fun _ => rfl)
  · exact readBytes_retry_exhaustion.2
      (fun i => if i < 2 then ⟨[], some IOErr.eof⟩ else ⟨[9], none⟩)
      (fun _ => false) 0 2 [9] (fun i hi => by simp [hi]) (by omega)
      (by norm_num) (by norm_num) (by norm_num) (fun _ => rfl)

/-- C8: cancellation observed at an iteration boundary of ReadBytes or
ReadRequiredBytes makes the call return the bytes accumulated so far paired
with a nil error — cancellation is never reported as an error by these read
primitives. -/
theorem read_cancellation_not_error :
    (∀ (reader : Nat → ReadRes) (cancelled : Nat → Bool) step buffer e sl fuel,
      cancelled step = true →
      readBytesLoop reader cancelled step buffer e sl (fuel + 1) =
        some (buffer, none, sl, step)) ∧
    (∀ (reader : Nat → ReadRes) (cancelled : Nat → Bool) step buffer num e sl fuel,
      cancelled step = true →
      readRequiredLoop reader cancelled step buffer num e sl (fuel + 1) =
        some (buffer, none, sl, step)) := by
  constructor
  · intro reader cancelled step buffer e sl fuel hc
    simp [readBytesLoop, hc]
  · intro reader cancelled step buffer num e sl fuel hc
    simp [readRequiredLoop, hc]

/-- C8 witness: a cancellation boundary reached with three accumulated bytes
returns them with a nil error, for both primitives. -/
theorem read_cancellation_not_error_witness :
    readBytesLoop (fun _ => ⟨[1], none⟩) (fun _ => true) 3 [7, 8, 9] 1 2 4 =
      some ([7, 8, 9], none, 2, 3) ∧
    readRequiredLoop (fun _ => ⟨[1], none⟩) (fun _ => true) 3 [7, 8, 9] 5 1 2 4 =
      some ([7, 8, 9], none, 2, 3) :=
  ⟨read_cancellation_not_error.1 (fun _ => ⟨[1], none⟩) (fun _ => true) 3 [7, 8, 9] 1 2 3 rfl,
   read_cancellation_not_error.2 (fun _ => ⟨[1], none⟩) (fun _ => true) 3 [7, 8, 9] 5 1 2 3 rfl⟩

/-! ## Helper lemmas: ReadBuffConn -/

theorem readBuffConnLoop_run (reader : Nat → ReadRes) (rfuel : Nat) (k : Nat) :
    ∀ pos outs errs ms e,
      readsUntilErr reader rfuel pos k = some (ms, e) →
      readBuffConnLoop reader (fun _ => false) rfuel pos outs errs k =
        some (outs ++ ms, errs ++ [e]) := by
  induction k with
  | zero => intro pos outs errs ms e h; simp [readsUntilErr] at h
  | succ k ih =>
    intro pos outs errs ms e h
    rw [readsUntilErr] at h
    rw [readBuffConnLoop]
    rcases hrb : ReadBytes reader (fun _ => false) pos rfuel with _ | ⟨buffer, _ | e1, sl, pos1⟩
    · simp [hrb] at h
    · rw [hrb] at h
      dsimp only at h
      rcases hrec : readsUntilErr reader rfuel pos1 k with _ | ⟨ms1, e2⟩
      · simp [hrec] at h
      · rw [hrec] at h
        simp only [Option.some.injEq, Prod.mk.injEq] at h
        obtain ⟨h1, h2⟩ := h
        subst h1; subst h2
        simp [ih pos1 (outs ++ [buffer]) errs ms1 e2 hrec]
    · rw [hrb] at h
      dsimp only at h
      simp only [Option.some.injEq, Prod.mk.injEq] at h
      obtain ⟨h1, h2⟩ := h
      subst h1; subst h2
      simp

/-! ## Claim theorems: ReadBuffConn -/

/-- C5: a ReadBuffConn run that observes cancellation terminates without
publishing anything onto either channel; an uncancelled run publishes each
complete message returned by ReadBytes onto the output channel in order, then
publishes the first ReadBytes error onto the error channel and terminates. -/
theorem readBuffConn_publishes :
    (∀ (reader : Nat → ReadRes) (cancelled : Nat → Bool) rfuel pos ofuel,
      cancelled pos = true →
      ReadBuffConn reader cancelled rfuel pos (ofuel + 1) = some ([], [])) ∧
    (∀ (reader : Nat → ReadRes) rfuel k pos ms e,
      readsUntilErr reader rfuel pos k = some (ms, e) →
      ReadBuffConn reader (fun _ => false) rfuel pos k = some (ms, [e])) := by
  constructor
  · intro reader cancelled rfuel pos ofuel hc
    simp [ReadBuffConn, readBuffConnLoop, hc]
  · intro reader rfuel k pos ms e h
    unfold ReadBuffConn
    rw [readBuffConnLoop_run reader rfuel k pos [] [] ms e h]
    simp

/-- C5 witness: a run cancelled at its boundary publishes nothing; an
uncancelled run over a reader yielding two short messages and then a fatal
error publishes both messages and then that single error. -/
theorem readBuffConn_publishes_witness :
    ReadBuffConn (fun _ => ⟨[1], none⟩) (fun _ => true) 3 0 5 = some ([], []) ∧
    ReadBuffConn (fun i => if i < 2 then ⟨[i + 1], none⟩ else ⟨[], some (IOErr.plain 9)⟩)
      (fun _ => false) 6 0 4 = some ([[1], [2]], [IOErr.plain 9]) :=
  ⟨readBuffConn_publishes.1 (fun _ => ⟨[1], none⟩) (fun _ => true) 3 0 4 rfl,
   readBuffConn_publishes.2
     (fun i => if i < 2 then ⟨[i + 1], none⟩ else ⟨[], some (IOErr.plain 9)⟩)
     6 4 0 [[1], [2]] (IOErr.plain 9) (by decide)⟩

/-! ## Helper lemmas: PassThrough -/

theorem writeChunks_ok (destW : Nat → Option IOErr) :
    ∀ (chunks : List (List Nat)) (i : Nat) (written : List (List Nat)),
      (∀ k, k < chunks.length → destW (i + k) = none) →
      writeChunks destW chunks i written = (written ++ chunks, none) := by
  intro chunks
  induction chunks with
  | nil => intro i written _; simp [writeChunks]
  | cons c rest ih =>
    intro i written h
    have h0 : destW i = none := by
      have := h 0 (by simp)
      simpa using this
    rw [writeChunks, h0]
    rw [ih (i + 1) (written ++ [c]) (fun k hk => by
      have := h (k + 1) (by simpa using Nat.succ_lt_succ hk)
      rwa [show i + (k + 1) = i + 1 + k by omega] at this)]
    simp

theorem writeChunks_fail (destW : Nat → Option IOErr) :
    ∀ (chunks : List (List Nat)) (i j : Nat) (e : IOErr) (written : List (List Nat)),
      j < chunks.length → destW (i + j) = some e →
      (∀ k, k < j → destW (i + k) = none) →
      writeChunks destW chunks i written = (written ++ chunks.take j, some e) := by
  intro chunks
  induction chunks with
  | nil => intro i j e written hj _ _; simp at hj
  | cons c rest ih =>
    intro i j e written hj hje hlt
    match j with
    | 0 =>
      have h0 : destW i = some e := by simpa using hje
      rw [writeChunks, h0]
      simp
    | j + 1 =>
      have h0 : destW i = none := by
        have := hlt 0 (by omega)
        simpa using this
      rw [writeChunks, h0]
      rw [ih (i + 1) j e (written ++ [c]) (by simpa using Nat.lt_of_succ_lt_succ hj)
        (by rwa [show i + 1 + j = i + (j + 1) by omega])
        (fun k hk => by
          have := hlt (k + 1) (by omega)
          rwa [show i + (k + 1) = i + 1 + k by omega] at this)]
      simp

/-! ## Claim theorems: PassThrough -/

/-- C6: with a non-nil destination, PassThrough writes the buffered request
chunks to the destination in the order given; if the j-th write is the first
to fail, it returns immediately with that error having written exactly the
first j chunks and nothing to the client; and every outcome of the call has
the destination connection closed. -/
theorem passThrough_writes_and_closes (cancelled : Nat → Bool)
    (reader : Nat → ReadRes) (destW : Nat → Option IOErr) (clientW : Option IOErr)
    (chunks : List (List Nat)) (rfuel : Nat) (res : PTRes)
    (h : PassThrough cancelled reader destW clientW false chunks rfuel = some res) :
    res.destClosed = true ∧
    ((∀ k, k < chunks.length → destW k = none) → res.destWritten = chunks) ∧
    (∀ j e, j < chunks.length → destW j = some e → (∀ k, k < j → destW k = none) →
      res = ⟨chunks.take j, true, [], some e⟩) := by
  unfold PassThrough at h
  rw [if_neg (by simp)] at h
  rcases hw : writeChunks destW chunks 0 [] with ⟨written, _ | e1⟩
  · -- all writes succeeded
    rw [hw] at h
    dsimp only at h
    have hwr : (∀ k, k < chunks.length → destW k = none) → written = chunks := by
      intro hall
      rw [writeChunks_ok destW chunks 0 [] (fun k hk => by simpa using hall k hk)] at hw
      simp only [List.nil_append, Prod.mk.injEq] at hw
      exact hw.1.symm
    have hnofail : ∀ j e, j < chunks.length → destW j = some e →
        (∀ k, k < j → destW k = none) → False := by
      intro j e hj hje hlt
      rw [writeChunks_fail destW chunks 0 j e [] hj (by simpa using hje)
        (fun k hk => by simpa using hlt k hk)] at hw
      simp at hw
    have hres : res.destClosed = true ∧ res.destWritten = written := by
      by_cases hc : cancelled 0 = true
      · rw [if_pos hc] at h
        obtain rfl : PTRes.mk written true [] none = res := by simpa using h
        exact ⟨rfl, rfl⟩
      · rw [if_neg hc] at h
        rcases hrb : ReadBytes reader cancelled 0 rfuel with _ | ⟨buffer, _ | e1, sl, pos1⟩
        · rw [hrb] at h; simp at h
        · rw [hrb] at h
          dsimp only at h
          rcases clientW with _ | e2
          · obtain rfl : PTRes.mk written true [buffer] none = res := by simpa using h
            exact ⟨rfl, rfl⟩
          · obtain rfl : PTRes.mk written true [] (some e2) = res := by simpa using h
            exact ⟨rfl, rfl⟩
        · rw [hrb] at h
          dsimp only at h
          by_cases ht : e1.isNetTimeout = true
          · rw [if_pos ht] at h
            obtain rfl : PTRes.mk written true [] none = res := by simpa using h
            exact ⟨rfl, rfl⟩
          · rw [if_neg ht] at h
            obtain rfl : PTRes.mk written true [] (some e1) = res := by simpa using h
            exact ⟨rfl, rfl⟩
    refine ⟨hres.1, ?_, ?_⟩
    · intro hall; rw [hres.2]; exact hwr hall
    · intro j e hj hje hlt; exact absurd (hnofail j e hj hje hlt) (fun x => x)
  · -- some write failed
    rw [hw] at h
    dsimp only at h
    obtain rfl : PTRes.mk written true [] (some e1) = res := by simpa using h
    refine ⟨rfl, ?_, ?_⟩
    · intro hall
      rw [writeChunks_ok destW chunks 0 [] (fun k hk => by simpa using hall k hk)] at hw
      simp at hw
    · intro j e hj hje hlt
      rw [writeChunks_fail destW chunks 0 j e [] hj (by simpa using hje)
        (fun k hk => by simpa using hlt k hk)] at hw
      simp only [List.nil_append, Prod.mk.injEq, Option.some.injEq] at hw
      obtain ⟨hw1, hw2⟩ := hw
      subst hw1; subst hw2
      rfl

/-- C6 witness: a successful two-chunk exchange has the destination closed
with both chunks written in order, and a failure at the second write returns
that error immediately with only the first chunk written. -/
theorem passThrough_writes_and_closes_witness :
    (PTRes.mk [[1], [2]] true [[5, 6]] none).destClosed = true ∧
    (PTRes.mk [[1], [2]] true [[5, 6]] none).destWritten = [[1], [2]] ∧
    PTRes.mk [[1]] true [] (some (IOErr.plain 7)) =
      ⟨[[1], [2]].take 1, true, [], some (IOErr.plain 7)⟩ := by
  have h := passThrough_writes_and_closes (fun _ => false) (fun _ => ⟨[5, 6], none⟩)
    (fun _ => none) none [[1], [2]] 3 ⟨[[1], [2]], true, [[5, 6]], none⟩ (by decide)
  have h2 := passThrough_writes_and_closes (fun _ => false) (fun _ => ⟨[5, 6], none⟩)
    (fun i => if i = 1 then some (IOErr.plain 7) else none) none [[1], [2]] 3
    ⟨[[1]], true, [], some (IOErr.plain 7)⟩ (by decide)
  refine ⟨h.1, h.2.1 (fun k hk => rfl), ?_⟩
  exact h2.2.2 1 (IOErr.plain 7) (by norm_num) (by norm_num)
    (fun k hk => by
      obtain rfl : k = 0 := by omega
      rfl)

/-- C7: after the buffered writes succeed, when the background reader
reports an error the call returns nil bytes with a nil error if that error
is a network timeout and with that error otherwise; and when cancellation is
observed instead, the call returns nil bytes and a nil error. -/
theorem passThrough_error_and_cancel (cancelled : Nat → Bool)
    (reader : Nat → ReadRes) (destW : Nat → Option IOErr) (clientW : Option IOErr)
    (chunks : List (List Nat)) (rfuel : Nat)
    (hW : ∀ k, k < chunks.length → destW k = none) :
    (∀ buffer e sl pos1, cancelled 0 = false →
      ReadBytes reader cancelled 0 rfuel = some (buffer, some e, sl, pos1) →
      PassThrough cancelled reader destW clientW false chunks rfuel =
        some ⟨chunks, true, [], if e.isNetTimeout = true then none else some e⟩) ∧
    (cancelled 0 = true →
      PassThrough cancelled reader destW clientW false chunks rfuel =
        some ⟨chunks, true, [], none⟩) := by
  have hwc : writeChunks destW chunks 0 [] = (chunks, none) := by
    rw [writeChunks_ok destW chunks 0 [] (fun k hk => by simpa using hW k hk)]
    simp
  constructor
  · intro buffer e sl pos1 hc hrb
    unfold PassThrough
    rw [if_neg (by simp), hwc]
    dsimp only
    rw [if_neg (by simp [hc]), hrb]
    dsimp only
    cases hti : IOErr.isNetTimeout e <;> simp [hti]
  · intro hc
    unfold PassThrough
    rw [if_neg (by simp), hwc]
    dsimp only
    rw [if_pos hc]

/-- C7 witness: a timeout error is benign, a plain error is returned as is,
and cancellation returns success. -/
theorem passThrough_error_and_cancel_witness :
    PassThrough (fun _ => false) (fun _ => ⟨[], some IOErr.netTimeout⟩)
      (fun _ => none) none false [[1]] 6 = some ⟨[[1]], true, [], none⟩ ∧
    PassThrough (fun _ => false) (fun _ => ⟨[], some (IOErr.plain 3)⟩)
      (fun _ => none) none false [[1]] 6 = some ⟨[[1]], true, [], some (IOErr.plain 3)⟩ ∧
    PassThrough (fun _ => true) (fun _ => ⟨[], none⟩)
      (fun _ => none) none false [[1]] 6 = some ⟨[[1]], true, [], none⟩ := by
  refine ⟨?_, ?_, ?_⟩
  · exact (passThrough_error_and_cancel (fun _ => false) (fun _ => ⟨[], some IOErr.netTimeout⟩)
      (fun _ => none) none [[1]] 6 (fun _ _ => rfl)).1 [] IOErr.netTimeout 0 1 rfl (by decide)
  · exact (passThrough_error_and_cancel (fun _ => false) (fun _ => ⟨[], some (IOErr.plain 3)⟩)
      (fun _ => none) none [[1]] 6 (fun _ _ => rfl)).1 [] (IOErr.plain 3) 0 1 rfl (by decide)
  · exact (passThrough_error_and_cancel (fun _ => true) (fun _ => ⟨[], none⟩)
      (fun _ => none) none [[1]] 6 (fun _ _ => rfl)).2 rfl

/-- C10: calling PassThrough with a nil destination connection returns nil
bytes with an error immediately: no chunk is written to any connection,
nothing is written to the client, and no Close is attempted. -/
theorem passThrough_nil_dest (cancelled : Nat → Bool) (reader : Nat → ReadRes)
    (destW : Nat → Option IOErr) (clientW : Option IOErr)
    (chunks : List (List Nat)) (rfuel : Nat) :
    PassThrough cancelled reader destW clientW true chunks rfuel =
      some ⟨[], false, [], some nilDestErr⟩ := rfl

theorem hook_state_after_started (c : Core) (ev : HookEvent)
    (h : c.proxyStarted = true) :
    (Core.Hook c ev).state = c ∧ (Core.Hook c ev).startCalls = [] := by
  rcases hga : c.getApp ev.id with _ | a
  · simp [Core.Hook, hga]
  · rcases hlr : ev.loadRes with _ | e
    · simp [Core.Hook, hga, hlr, h]
    · simp [Core.Hook, hga, hlr]

theorem hookSeq_after_started (c : Core) (evs : List HookEvent)
    (h : c.proxyStarted = true) :
    (hookSeq c evs).1.proxyStarted = true ∧ (hookSeq c evs).2 = [] := by
  induction evs generalizing c with
  | nil => exact ⟨h, rfl⟩
  | cons ev evs ih =>
    have hs := hook_state_after_started c ev h
    rw [hookSeq]
    dsimp only
    rw [hs.1, hs.2]
    obtain ⟨ih1, ih2⟩ := ih c h
    exact ⟨ih1, by simp [ih2]⟩

/-- C2 (amended): the proxyStarted flag never reverts (once true it stays
true over any sequence of Hook calls, and a run ending with the flag false
started with it false), StartProxy is never invoked again once the proxy has
started, and a Hook call made after the proxy has started that resolves its
App and passes Load returns success without invoking StartProxy and without
changing the Core state. -/
theorem hook_gate_amended :
    (∀ (c : Core) (evs : List HookEvent), c.proxyStarted = true →
      (hookSeq c evs).1.proxyStarted = true ∧ (hookSeq c evs).2 = []) ∧
    (∀ (c : Core) (evs : List HookEvent), (hookSeq c evs).1.proxyStarted = false →
      c.proxyStarted = false) ∧
    (∀ (c : Core) (ev : HookEvent) (a : App), c.proxyStarted = true →
      c.getApp ev.id = some a → ev.loadRes = none →
      (Core.Hook c ev).ret = none ∧ (Core.Hook c ev).startCalls = [] ∧
        (Core.Hook c ev).state = c) := by
  refine ⟨hookSeq_after_started, ?_, ?_⟩
  · intro c evs h
    by_contra hc
    have ht : c.proxyStarted = true := by
      revert hc; cases c.proxyStarted <;> simp
    have := (hookSeq_after_started c evs ht).1
    simp [this] at h
  · intro c ev a h hga hl
    simp [Core.Hook, hga, hl, h]

/-- C2 witness: from a Core whose proxy is already started, two further Hook
calls make no StartProxy invocation, and a single Hook call that resolves its
App and passes Load returns success. -/
theorem hook_gate_amended_witness :
    (hookSeq ⟨1, [(0, ⟨0, AppKind.docker, 5⟩)], true⟩
      [⟨0, none, none⟩, ⟨0, none, none⟩]).2 = [] ∧
    (Core.Hook ⟨1, [(0, ⟨0, AppKind.docker, 5⟩)], true⟩ ⟨0, none, none⟩).ret = none :=
  ⟨(hook_gate_amended.1 ⟨1, [(0, ⟨0, AppKind.docker, 5⟩)], true⟩
      [⟨0, none, none⟩, ⟨0, none, none⟩] rfl).2,
   (hook_gate_amended.2.2 ⟨1, [(0, ⟨0, AppKind.docker, 5⟩)], true⟩ ⟨0, none, none⟩
      ⟨0, AppKind.docker, 5⟩ rfl rfl rfl).1⟩

/-- C2 counterexample: from a Core with one registered App and the proxy not
yet started, two sequential Hook calls that both pass Load, where the first
StartProxy attempt fails, invoke StartProxy twice — refuting that StartProxy
is invoked at most once in the Core's lifetime. -/
theorem hook_startProxy_invoked_twice :
    (hookSeq ⟨1, [(0, ⟨0, AppKind.native, 167772161⟩)], false⟩
      [⟨0, none, some "proxy start failed"⟩, ⟨0, none, none⟩]).2 =
      [⟨167772161⟩, ⟨167772161⟩] := by decide

/-- C1: Core.Setup never stores the constructed App in the registry (the
`c.apps.Store(id, a)` step is missing), so after a successful Setup returning
id 0 with nil error, getApp fails, Hook returns the generic hook error and
Run reports the internal AppError — refuting that a Setup-registered App is
resolvable by a subsequent Hook or Run. -/
theorem setup_does_not_store :
    (∀ (c : Core) (kind : AppKind) (ipv4 : Nat) (sr : Option String),
      ((Core.Setup c kind ipv4 sr).1).apps = c.apps) ∧
    Core.Setup Core.new AppKind.native 167772161 none = (⟨1, [], false⟩, 0, none) ∧
    Core.getApp (Core.Setup Core.new AppKind.native 167772161 none).1 0 = none ∧
    (Core.Hook (Core.Setup Core.new AppKind.native 167772161 none).1
      ⟨0, none, none⟩).ret = some hookErrMsg ∧
    Core.Run (Core.Setup Core.new AppKind.native 167772161 none).1 0 false
      AppErrTy.zero = AppErrTy.internal := by
  refine ⟨?_, by decide, by decide, by decide, by decide⟩
  intro c kind ipv4 sr
  cases sr <;> rfl

theorem digitChar_spec (d : Nat) (h : d < 10) :
    isDigitCh (digitChar d) = true ∧ digitChar d ≠ '.' ∧ digitVal (digitChar d) = d := by
  interval_cases d <;> refine ⟨by decide, by decide, by decide⟩

theorem natDigitsAux_lt_ten (fuel : Nat) :
    ∀ n d, d ∈ natDigitsAux fuel n → d < 10 := by
  induction fuel with
  | zero => intro n d hd; simp [natDigitsAux] at hd
  | succ fuel ih =>
    intro n d hd
    match n with
    | 0 => simp [natDigitsAux] at hd
    | m + 1 =>
      rw [natDigitsAux] at hd
      rcases List.mem_cons.mp hd with h | h
      · subst h; exact Nat.mod_lt _ (by norm_num)
      · exact ih _ _ h

theorem foldl_digits_val (fuel : Nat) : ∀ n acc, n ≤ fuel →
    List.foldl (fun a c => a * 10 + digitVal c) acc
      ((natDigitsAux fuel n).reverse.map digitChar)
      = acc * 10 ^ (natDigitsAux fuel n).length + n := by
  induction fuel with
  | zero =>
    intro n acc h
    obtain rfl : n = 0 := by omega
    simp [natDigitsAux]
  | succ fuel ih =>
    intro n acc h
    match n with
    | 0 => simp [natDigitsAux]
    | m + 1 =>
      rw [natDigitsAux]
      have hd : digitVal (digitChar ((m + 1) % 10)) = (m + 1) % 10 :=
        (digitChar_spec _ (Nat.mod_lt _ (by norm_num))).2.2
      have hrec := ih ((m + 1) / 10) acc (by omega)
      simp only [List.reverse_cons, List.map_append, List.map_cons, List.map_nil,
        List.foldl_append, List.foldl_cons, List.foldl_nil, List.length_cons]
      rw [hrec, hd]
      have hqr : (m + 1) / 10 * 10 + (m + 1) % 10 = m + 1 := by omega
      have hgoal : ∀ (X q r s : Nat), q * 10 + r = s →
          (acc * X + q) * 10 + r = acc * (X * 10) + s := by
        intro X q r s hs
        rw [← hs]
        ring
      rw [pow_succ]
      exact hgoal _ _ _ _ hqr

theorem natToChars_facts (n : Nat) :
    natToChars n ≠ [] ∧ ∀ c ∈ natToChars n, isDigitCh c = true ∧ c ≠ '.' := by
  unfold natToChars
  by_cases h : n = 0
  · subst h
    refine ⟨by decide, ?_⟩
    intro c hc
    simp at hc
    subst hc
    exact ⟨by decide, by decide⟩
  · rw [if_neg h]
    constructor
    · match n, h with
      | m + 1, _ => simp [natDigitsAux]
    · intro c hc
      simp only [List.mem_map, List.mem_reverse] at hc
      obtain ⟨d, hd, rfl⟩ := hc
      have hlt := natDigitsAux_lt_ten n n d hd
      exact ⟨(digitChar_spec d hlt).1, (digitChar_spec d hlt).2.1⟩

theorem parseField_natToChars (n : Nat) (h : n ≤ 255) :
    parseField (natToChars n) = some n := by
  have hfacts := natToChars_facts n
  have hcond : (decide (natToChars n ≠ []) && (natToChars n).all isDigitCh) = true := by
    rw [Bool.and_eq_true]
    exact ⟨decide_eq_true hfacts.1,
      List.all_eq_true.mpr (fun c hc => (hfacts.2 c hc).1)⟩
  have hval : (natToChars n).foldl (fun a c => a * 10 + digitVal c) 0 = n := by
    by_cases h0 : n = 0
    · subst h0; decide
    · unfold natToChars
      rw [if_neg h0]
      have := foldl_digits_val n n 0 (Nat.le_refl n)
      simpa using this
  unfold parseField
  rw [if_pos hcond, hval, if_pos h]

theorem splitOnDot_no_dot (cs : List Char) (h : ∀ c ∈ cs, c ≠ '.') :
    splitOnDot cs = [cs] := by
  induction cs with
  | nil => rfl
  | cons c rest ih =>
    have hr := ih (fun x hx => h x (List.mem_cons_of_mem _ hx))
    have hc : ¬(c = '.') := h c (List.mem_cons_self c rest)
    simp [splitOnDot, hr, hc]

theorem splitOnDot_append (xs ys : List Char) (h : ∀ c ∈ xs, c ≠ '.') :
    splitOnDot (xs ++ '.' :: ys) = xs :: splitOnDot ys := by
  induction xs with
  | nil => simp [splitOnDot]
  | cons c rest ih =>
    have hr := ih (fun x hx => h x (List.mem_cons_of_mem _ hx))
    have hc : ¬(c = '.') := h c (List.mem_cons_self c rest)
    simp [splitOnDot, hr, hc]

theorem shiftLeft_lor_eq_add (x y n : Nat) (h : y < 2 ^ n) :
    x <<< n ||| y = x * 2 ^ n + y := by
  apply Nat.eq_of_testBit_eq
  intro j
  rw [Nat.testBit_or, Nat.testBit_shiftLeft]
  rw [show x * 2 ^ n + y = 2 ^ n * x + y by ring]
  rw [Nat.testBit_mul_pow_two_add x h j]
  by_cases hj : j < n
  · have hge : ¬(j ≥ n) := by omega
    simp [hj, hge]
  · have hy : y < 2 ^ j :=
      lt_of_lt_of_le h (Nat.pow_le_pow_right (by norm_num) (by omega))
    simp [hj, Nat.testBit_lt_two_pow hy, (by omega : j ≥ n)]

/-- C9: for every 32-bit value v, rendering v with ToIP4AddressStr and
parsing the dotted-decimal text back (net.ParseIP followed by ToIPV4)
yields (v, true). -/
theorem ip4_roundtrip (v : Nat) (h : v < 4294967296) :
    ∃ ip, parseIPv4Text (ToIP4AddressStr v) = some ip ∧ ToIPV4 ip = (v, true) := by
  have h0 : v / 16777216 % 256 ≤ 255 := by omega
  have h1 : v / 65536 % 256 ≤ 255 := by omega
  have h2 : v / 256 % 256 ≤ 255 := by omega
  have h3 : v % 256 ≤ 255 := by omega
  refine ⟨[v / 16777216 % 256, v / 65536 % 256, v / 256 % 256, v % 256], ?_, ?_⟩
  · unfold parseIPv4Text ToIP4AddressStr
    have hnd0 := (natToChars_facts (v / 16777216 % 256)).2
    have hnd1 := (natToChars_facts (v / 65536 % 256)).2
    have hnd2 := (natToChars_facts (v / 256 % 256)).2
    have hnd3 := (natToChars_facts (v % 256)).2
    show (match (splitOnDot (natToChars (v / 16777216 % 256)
        ++ '.' :: natToChars (v / 65536 % 256)
        ++ '.' :: natToChars (v / 256 % 256)
        ++ '.' :: natToChars (v % 256))).map parseField with
      | [some a, some b, some c, some d] => some [a, b, c, d]
      | _ => none) = _
    simp only [List.append_assoc, List.cons_append]
    rw [splitOnDot_append _ _ (fun c hc => (hnd0 c hc).2),
      splitOnDot_append _ _ (fun c hc => (hnd1 c hc).2),
      splitOnDot_append _ _ (fun c hc => (hnd2 c hc).2),
      splitOnDot_no_dot _ (fun c hc => (hnd3 c hc).2)]
    simp only [List.map_cons, List.map_nil]
    rw [parseField_natToChars _ h0, parseField_natToChars _ h1,
      parseField_natToChars _ h2, parseField_natToChars _ h3]
  · have hip : ipTo4 [v / 16777216 % 256, v / 65536 % 256, v / 256 % 256, v % 256] =
        some [v / 16777216 % 256, v / 65536 % 256, v / 256 % 256, v % 256] := by
      unfold ipTo4
      rw [if_pos (by simp)]
    unfold ToIPV4
    rw [hip]
    simp only [List.getD_cons_zero, List.getD_cons_succ]
    have e8 : (2:Nat) ^ 8 = 256 := by norm_num
    have e16 : (2:Nat) ^ 16 = 65536 := by norm_num
    have e24 : (2:Nat) ^ 24 = 16777216 := by norm_num
    rw [Nat.lor_assoc, Nat.lor_assoc]
    rw [shiftLeft_lor_eq_add (v / 256 % 256) (v % 256) 8 (by omega)]
    rw [shiftLeft_lor_eq_add (v / 65536 % 256) _ 16 (by omega)]
    rw [shiftLeft_lor_eq_add (v / 16777216 % 256) _ 24 (by omega)]
    simp only [Prod.mk.injEq]
    exact ⟨by omega, trivial⟩

/-- C9 witness: the literal case 0x0A000001 = 167772161 renders as
"10.0.0.1", which parses back to (0x0A000001, true). -/
theorem ip4_roundtrip_witness :
    ToIP4AddressStr 167772161 = "10.0.0.1" ∧
    parseIPv4Text "10.0.0.1" = some [10, 0, 0, 1] ∧
    ToIPV4 [10, 0, 0, 1] = (167772161, true) ∧
    (∃ ip, parseIPv4Text (ToIP4AddressStr 167772161) = some ip ∧
      ToIPV4 ip = (167772161, true)) :=
  ⟨by decide, by decide, by decide, ip4_roundtrip 167772161 (by norm_num)⟩

end Keploy
